import Mathlib

/-!
Verification of the postcodesio Go package (a client for the postcodes.io
geocoding service) against its natural-language specification.

The embedding is byte-level: Go strings and byte slices are modelled as
`List Nat` of byte values (the package only ever handles ASCII constants,
and arbitrary caller input is modelled as an arbitrary byte list).
Floating point coordinates are modelled as exact decimals, a mantissa
with a power-of-ten denominator: the code never computes with them, it
only decodes and copies them, so the exact-decimal abstraction is
faithful.

The source file contains two revisions of the package; the definitions
below follow the newer revision (the authority for every claim), and the
older revision of geocodeURL is embedded separately as geocodeURLrev1 for
the equivalence claim.
-/

namespace Postcodesio

/-- ASCII bytes of the constant baseURL = https://api.postcodes.io . -/
def baseURL : List Nat :=
  [104, 116, 116, 112, 115, 58, 47, 47, 97, 112, 105, 46, 112, 111, 115, 116, 99, 111, 100, 101, 115, 46, 105, 111]

/-- ASCII bytes of the path segment /postcodes/ . -/
def postcodesSeg : List Nat := [47, 112, 111, 115, 116, 99, 111, 100, 101, 115, 47]

/-- ASCII bytes of the path segment /outcodes/ . -/
def outcodesSeg : List Nat := [47, 111, 117, 116, 99, 111, 100, 101, 115, 47]

/-- ASCII bytes of https . -/
def httpsBytes : List Nat := [104, 116, 116, 112, 115]

/-- ASCII bytes of api.postcodes.io . -/
def hostBytes : List Nat := [97, 112, 105, 46, 112, 111, 115, 116, 99, 111, 100, 101, 115, 46, 105, 111]

/-- The package Error type: a closed set of error kinds (in Go, a string
type with six constants). -/
inductive Error where
  | NotFound
  | BadRequest
  | ServerError
  | NoResults
  | MultipleResults
  | InvalidError
deriving DecidableEq

/-- The value of each Error constant as a byte string, from the source. -/
def Error.constVal : Error → List Nat
  | .NotFound => [80, 111, 115, 116, 99, 111, 100, 101, 32, 78, 111, 116, 32, 70, 111, 117, 110, 100]
  | .BadRequest => [66, 97, 100, 32, 82, 101, 113, 117, 101, 115, 116]
  | .ServerError => [83, 101, 114, 118, 101, 114, 32, 69, 114, 114, 111, 114]
  | .NoResults => [78, 111, 32, 82, 101, 115, 117, 108, 116, 115]
  | .MultipleResults => [77, 117, 108, 116, 105, 112, 108, 101, 32, 82, 101, 115, 117, 108, 116, 115]
  | .InvalidError => [73, 110, 118, 97, 108, 105, 100, 32, 69, 114, 114, 111, 114]

/-- The message produced by the Error method of the package Error type
(source lines 220 to 235 of the embedded revision). The default switch
case yields the InvalidError message. -/
def Error.message : Error → List Nat
  | .NotFound =>
    [112, 111, 115, 116, 99, 111, 100, 101, 115, 46, 105, 111, 32, 99, 111, 117, 108, 100, 32, 110, 111, 116, 32, 102, 105, 110, 100, 32, 116, 104, 101, 32, 114, 101, 113, 117, 101, 115, 116, 101, 100, 32, 105, 110, 102, 111, 114, 109, 97, 116, 105, 111, 110, 32, 40, 52, 48, 52, 41]
  | .BadRequest =>
    [112, 111, 115, 116, 99, 111, 100, 101, 115, 46, 105, 111, 32, 114, 101, 106, 101, 99, 116, 101, 100, 32, 116, 104, 101, 32, 114, 101, 113, 117, 101, 115, 116, 32, 40, 52, 48, 48, 41]
  | .ServerError =>
    [112, 111, 115, 116, 99, 111, 100, 101, 115, 46, 105, 111, 32, 101, 110, 99, 111, 117, 110, 116, 101, 114, 101, 100, 32, 97, 110, 32, 101, 114, 114, 111, 114, 32, 40, 53, 48, 48, 41]
  | .NoResults =>
    [112, 111, 115, 116, 99, 111, 100, 101, 115, 46, 105, 111, 32, 114, 101, 116, 117, 114, 110, 101, 100, 32, 110, 111, 32, 114, 101, 115, 117, 108, 116, 115, 32, 102, 111, 114, 32, 116, 104, 101, 32, 114, 101, 113, 117, 101, 115, 116]
  | .MultipleResults =>
    [112, 111, 115, 116, 99, 111, 100, 101, 115, 46, 105, 111, 32, 114, 101, 116, 117, 114, 110, 101, 100, 32, 109, 117, 108, 116, 105, 112, 108, 101, 32, 114, 101, 115, 117, 108, 116, 115, 32, 102, 111, 114, 32, 116, 104, 101, 32, 114, 101, 113, 117, 101, 115, 116]
  | .InvalidError =>
    [73, 110, 118, 97, 108, 105, 100, 32, 69, 114, 114, 111, 114, 58, 32, 80, 108, 101, 97, 115, 101, 32, 114, 101, 112, 111, 114, 116, 32, 116, 111, 32, 112, 111, 115, 99, 111, 100, 101, 115, 105, 111, 32, 71, 111, 32, 112, 97, 99, 107, 97, 103, 101, 32, 109, 97, 105, 110, 116, 97, 105, 110, 101, 114]

/-- Models errorFromHTTPCode: the switch on the status code (source lines
207 to 218). The Go int is modelled as Int. -/
def errorFromHTTPCode (code : Int) : Error :=
  if code = 400 then .BadRequest
  else if code = 404 then .NotFound
  else if code = 500 then .ServerError
  else .InvalidError

/-- Errors from the json decoder, distinguished exactly as far as
decodePayload distinguishes them: io.EOF on an empty stream, unexpected
end of input inside a value, any other syntax problem, and an unmarshal
type error. -/
inductive JsonErr where
  | eofErr
  | unexpectedEnd
  | badInput
  | typeErr
deriving DecidableEq

/-- A Go error value as observed by this package: one of the typed package
Error constants, an error from the json decoder, an errors.New value
carrying only a message, an invalid URL escape error, or the wrapping
url.Error produced by url.ParseRequestURI around an inner error. -/
inductive GoError where
  | pkgErr (e : Error)
  | jsonErr (e : JsonErr)
  | newError (msg : List Nat)
  | escapeErr (seq : List Nat)
  | urlWrapErr (raw : List Nat) (inner : GoError)
deriving DecidableEq

/-- Message of the net/url control character error. -/
def ctlMsg : List Nat :=
  [110, 101, 116, 47, 117, 114, 108, 58, 32, 105, 110, 118, 97, 108, 105, 100, 32, 99, 111, 110, 116, 114, 111, 108, 32, 99, 104, 97, 114, 97, 99, 116, 101, 114, 32, 105, 110, 32, 85, 82, 76]

/-- Message of the net/url missing protocol scheme error. -/
def missingSchemeMsg : List Nat :=
  [109, 105, 115, 115, 105, 110, 103, 32, 112, 114, 111, 116, 111, 99, 111, 108, 32, 115, 99, 104, 101, 109, 101]

/-- Message of the net/url empty url error. -/
def emptyURLMsg : List Nat := [101, 109, 112, 116, 121, 32, 117, 114, 108]

/-- Message of the net/url invalid URI for request error. -/
def invalidReqMsg : List Nat :=
  [105, 110, 118, 97, 108, 105, 100, 32, 85, 82, 73, 32, 102, 111, 114, 32, 114, 101, 113, 117, 101, 115, 116]

/-- Placeholder message for authority forms that the restricted host model
below does not cover; unreachable from this package, whose only authority
is the constant host api.postcodes.io . -/
def unmodelledHostMsg : List Nat :=
  [104, 111, 115, 116, 32, 102, 111, 114, 109, 32, 110, 111, 116, 32, 109, 111, 100, 101, 108, 108, 101, 100]

/-- True when the byte is an ASCII control character; models the per-byte
test of stringContainsCTLByte in net/url. -/
def isCtlByte (b : Nat) : Bool := b < 32 || b == 127

/-- Models stringContainsCTLByte in net/url. -/
def containsCTLByte (s : List Nat) : Bool := s.any isCtlByte

/-- ASCII letter test. -/
def isAlphaByte (b : Nat) : Bool := (97 ≤ b && b ≤ 122) || (65 ≤ b && b ≤ 90)

/-- ASCII digit test. -/
def isDigitByte (b : Nat) : Bool := 48 ≤ b && b ≤ 57

/-- ASCII alphanumeric test. -/
def isAlphaNumByte (b : Nat) : Bool := isAlphaByte b || isDigitByte b

/-- ASCII lower casing of one byte. -/
def lowerByte (b : Nat) : Nat := if 65 ≤ b && b ≤ 90 then b + 32 else b

/-- ASCII lower casing of a byte string. -/
def lowerBytes (s : List Nat) : List Nat := s.map lowerByte

/-- Models shouldEscape with mode encodePath from net/url: alphanumerics,
the unreserved marks, and the reserved characters allowed in paths pass
through; among the reserved set only the question mark is escaped;
everything else is escaped. -/
def shouldEscapePath (c : Nat) : Bool :=
  if isAlphaNumByte c then false
  else if c == 45 || c == 95 || c == 46 || c == 126 then false
  else if c == 36 || c == 38 || c == 43 || c == 44 || c == 47 || c == 58 || c == 59 || c == 61 || c == 63 || c == 64 then
    c == 63
  else true

/-- Models shouldEscape with mode encodeHost from net/url. -/
def shouldEscapeHost (c : Nat) : Bool :=
  if isAlphaNumByte c then false
  else if c == 45 || c == 95 || c == 46 || c == 126 then false
  else if c == 33 || c == 36 || c == 38 || c == 39 || c == 40 || c == 41 || c == 42 || c == 43 || c == 44 || c == 59 || c == 61 || c == 58 || c == 91 || c == 93 || c == 60 || c == 62 || c == 34 then
    false
  else true

/-- Upper case hexadecimal digit byte of a value below 16. -/
def upperHexDigit (n : Nat) : Nat := if n < 10 then 48 + n else 55 + n

/-- Models escape from net/url for a given per-byte escaping predicate. -/
def escapeWith (p : Nat → Bool) : List Nat → List Nat
  | [] => []
  | c :: rest =>
    if p c then 37 :: upperHexDigit (c / 16) :: upperHexDigit (c % 16) :: escapeWith p rest
    else c :: escapeWith p rest

/-- Path escaping, escape with mode encodePath. -/
def escapePath (s : List Nat) : List Nat := escapeWith shouldEscapePath s

/-- Host escaping, escape with mode encodeHost. -/
def escapeHost (s : List Nat) : List Nat := escapeWith shouldEscapeHost s

/-- Hexadecimal digit byte test. -/
def isHexByte (b : Nat) : Bool := isDigitByte b || (97 ≤ b && b ≤ 102) || (65 ≤ b && b ≤ 70)

/-- Value of a hexadecimal digit byte. -/
def unhexByte (b : Nat) : Nat :=
  if isDigitByte b then b - 48 else if 97 ≤ b then b - 87 else b - 55

/-- Models unescape with mode encodePath from net/url: percent escapes are
decoded, a percent not followed by two hexadecimal digits is an error, and
every other byte passes through. -/
def unescapePath : List Nat → Except GoError (List Nat)
  | [] => .ok []
  | c :: rest =>
    if c == 37 then
      match rest with
      | a :: b :: rest2 =>
        if isHexByte a && isHexByte b then
          match unescapePath rest2 with
          | .ok t => .ok ((unhexByte a * 16 + unhexByte b) :: t)
          | .error e => .error e
        else .error (.escapeErr [37, a, b])
      | _ => .error (.escapeErr (37 :: rest))
    else
      match unescapePath rest with
      | .ok t => .ok (c :: t)
      | .error e => .error e

/-- Per-byte test of validEncoded with mode encodePath from net/url. -/
def validEncPathByte (c : Nat) : Bool :=
  if c == 33 || c == 36 || c == 38 || c == 39 || c == 40 || c == 41 || c == 42 || c == 43 || c == 44 || c == 59 || c == 61 || c == 58 || c == 64 then true
  else if c == 91 || c == 93 then true
  else if c == 37 then true
  else !(shouldEscapePath c)

/-- Models validEncoded with mode encodePath from net/url. -/
def validEncodedPath (s : List Nat) : Bool := s.all validEncPathByte

/-- The parts of a net/url URL value that this package can reach: scheme,
opaque part, host, path with its raw form, and the query. User info,
fragment and host omission never occur here and are not modelled. -/
structure GoURL where
  scheme : List Nat := []
  opq : List Nat := []
  host : List Nat := []
  path : List Nat := []
  rawPath : List Nat := []
  forceQuery : Bool := false
  rawQuery : List Nat := []
deriving DecidableEq

/-- Models the EscapedPath method of net/url URL. -/
def GoURL.escapedPathStr (u : GoURL) : List Nat :=
  if u.rawPath ≠ [] && validEncodedPath u.rawPath then
    match unescapePath u.rawPath with
    | .ok p => if p = u.path then u.rawPath else escapePath u.path
    | .error _ => escapePath u.path
  else if u.path = [42] then [42]
  else escapePath u.path

/-- Models the String method of net/url URL, restricted to URL values
without user info, fragment, or host omission (the only values reachable
from this package). -/
def GoURL.toStr (u : GoURL) : List Nat :=
  (if u.scheme ≠ [] then u.scheme ++ [58] else []) ++
  (if u.opq ≠ [] then u.opq
   else
     (if u.scheme ≠ [] || u.host ≠ [] then
        (if u.host ≠ [] || u.path ≠ [] then [47, 47] else []) ++ escapeHost u.host
      else []) ++
     (let p := u.escapedPathStr
      (if p ≠ [] && p.headD 0 ≠ 47 && u.host ≠ [] then [47] else []) ++ p)) ++
  (if u.forceQuery || u.rawQuery ≠ [] then 63 :: u.rawQuery else [])

/-- Models getScheme from net/url. The accumulator holds the scheme bytes
read so far, so the accumulator is empty exactly when the index is zero in
the Go loop; the original input is kept for the no-scheme fallbacks. -/
def getSchemeAux (orig : List Nat) (acc : List Nat) : List Nat → Except GoError (List Nat × List Nat)
  | [] => .ok ([], orig)
  | c :: rest =>
    if isAlphaByte c then getSchemeAux orig (acc ++ [c]) rest
    else if isDigitByte c || c == 43 || c == 45 || c == 46 then
      (if acc = [] then .ok ([], orig) else getSchemeAux orig (acc ++ [c]) rest)
    else if c == 58 then
      (if acc = [] then .error (.newError missingSchemeMsg) else .ok (acc, rest))
    else .ok ([], orig)

/-- Models getScheme from net/url applied to a raw URL. -/
def getScheme (raw : List Nat) : Except GoError (List Nat × List Nat) :=
  getSchemeAux raw [] raw

/-- Cut a byte string at the first occurrence of a byte: the part before
it, and, when found, the part after it. -/
def cutAt (t : Nat) : List Nat → (List Nat × Option (List Nat))
  | [] => ([], none)
  | c :: rest =>
    if c == t then ([], some rest)
    else
      let p := cutAt t rest
      (c :: p.1, p.2)

/-- Models the query split of net/url parse. The Go ForceQuery condition,
the string ends in a question mark and contains no other question mark, is
expressed equivalently: cutting at the first question mark leaves an empty
remainder. -/
def splitQuery (rest : List Nat) : List Nat × Bool × List Nat :=
  match cutAt 63 rest with
  | (r, some []) => (r, true, [])
  | (r, some q) => (r, false, q)
  | (r, none) => (r, false, [])

/-- Models parseAuthority and parseHost from net/url, restricted to
authorities without user info, port, IPv6 brackets, or percent escapes;
the only authority reachable from this package is the constant host
api.postcodes.io, for which host parsing is the identity. -/
def parseAuthority (authority : List Nat) : Except GoError (List Nat) :=
  if authority.contains 64 || authority.contains 58 || authority.contains 91 || authority.contains 37 then
    .error (.newError unmodelledHostMsg)
  else .ok authority

/-- Models the setPath method of net/url URL: the path is the unescaped
form, and the raw path is kept only when it differs from the default
escaping of the decoded path. -/
def setPathOf (p : List Nat) : Except GoError (List Nat × List Nat) :=
  match unescapePath p with
  | .error e => .error e
  | .ok decoded =>
    if p = escapePath decoded then .ok (decoded, [])
    else .ok (decoded, p)

/-- Models parse from net/url with viaRequest true: control character
check, empty check, the star form, scheme split, query split, authority
split, and path assignment. -/
def parseCore (rawURL : List Nat) : Except GoError GoURL :=
  if containsCTLByte rawURL then .error (.newError ctlMsg)
  else if rawURL = [] then .error (.newError emptyURLMsg)
  else if rawURL = [42] then .ok { path := [42] }
  else
    match getScheme rawURL with
    | .error e => .error e
    | .ok (scheme0, rest0) =>
      let scheme := lowerBytes scheme0
      let (rest1, fq, rq) := splitQuery rest0
      match rest1 with
      | 47 :: 47 :: tail =>
        if scheme ≠ [] then
          let ar :=
            match cutAt 47 tail with
            | (a, some r) => (a, 47 :: r)
            | (a, none) => (a, ([] : List Nat))
          match parseAuthority ar.1 with
          | .error e => .error e
          | .ok host =>
            match setPathOf ar.2 with
            | .error e => .error e
            | .ok pr =>
              .ok { scheme := scheme, host := host, path := pr.1, rawPath := pr.2,
                    forceQuery := fq, rawQuery := rq }
        else
          match setPathOf rest1 with
          | .error e => .error e
          | .ok pr =>
            .ok { scheme := scheme, path := pr.1, rawPath := pr.2,
                  forceQuery := fq, rawQuery := rq }
      | 47 :: tail =>
        match setPathOf (47 :: tail) with
        | .error e => .error e
        | .ok pr =>
          .ok { scheme := scheme, path := pr.1, rawPath := pr.2,
                forceQuery := fq, rawQuery := rq }
      | _ =>
        if scheme ≠ [] then .ok { scheme := scheme, opq := rest1, forceQuery := fq, rawQuery := rq }
        else .error (.newError invalidReqMsg)

/-- Models url.ParseRequestURI: parse with viaRequest true, wrapping any
inner error in a url.Error that records the raw URL. -/
def parseRequestURI (rawURL : List Nat) : Except GoError GoURL :=
  match parseCore rawURL with
  | .error e => .error (.urlWrapErr rawURL e)
  | .ok u => .ok u

/-- The raw URL string built by geocodeURL before parsing (source lines
284 to 289): length above four routes to /postcodes/, otherwise to
/outcodes/. -/
def geocodeRaw (pc : List Nat) : List Nat :=
  if 4 < pc.length then baseURL ++ postcodesSeg ++ pc
  else baseURL ++ outcodesSeg ++ pc

/-- The uri value computed inside geocodeURL (source line 291). -/
def geocodeURI (pc : List Nat) : Except GoError GoURL :=
  parseRequestURI (geocodeRaw pc)

/-- Models geocodeURL of the newer revision (source lines 277 to 297):
build the length-routed raw URL, parse it, and serialise the parsed URL
back to a string. -/
def geocodeURL (pc : List Nat) : Except GoError (List Nat) :=
  match geocodeURI pc with
  | .error e => .error e
  | .ok uri => .ok uri.toStr

/-- Models geocodeURL of the older revision (source lines 94 to 103),
which always routes to /postcodes/ regardless of length. -/
def geocodeURLrev1 (pc : List Nat) : Except GoError (List Nat) :=
  match parseRequestURI (baseURL ++ postcodesSeg ++ pc) with
  | .error e => .error e
  | .ok uri => .ok uri.toStr

/-! JSON values and a model of the encoding/json decoding used by
decodePayload. JSON numbers are modelled as exact decimals; the code
only decodes and copies them, so no arithmetic on them is ever needed. -/

/-- An exact decimal: the value num divided by ten to the den10. The
representation is kept exactly as parsed, never normalised; the claims
only ever compare values decoded from identical literals, for which
representation equality and numeric equality coincide. -/
structure GoFloat where
  num : Int
  den10 : Nat
deriving DecidableEq

/-- A decoded JSON value. Object fields are kept in source order. -/
inductive Json where
  | null
  | bool (b : Bool)
  | num (q : GoFloat)
  | str (s : List Nat)
  | arr (elems : List Json)
  | obj (fields : List (List Nat × Json))

/-- JSON whitespace skipping. -/
def skipWs : List Nat → List Nat
  | [] => []
  | c :: rest => if c == 32 || c == 9 || c == 10 || c == 13 then skipWs rest else c :: rest

/-- Numeric value of a list of ASCII digit bytes. -/
def digitsToNat (ds : List Nat) : Nat := ds.foldl (fun a d => a * 10 + (d - 48)) 0

/-- Split the longest run of leading ASCII digits from a byte string. -/
def takeDigits : List Nat → (List Nat × List Nat)
  | [] => ([], [])
  | c :: rest =>
    if isDigitByte c then
      let p := takeDigits rest
      (c :: p.1, p.2)
    else ([], c :: rest)

/-- Parse the optional exponent digits of a JSON number and apply them to
the decimal value. -/
def parseExpDigits (v : GoFloat) (s : List Nat) : Except JsonErr (GoFloat × List Nat) :=
  let p : Bool × List Nat :=
    match s with
    | 45 :: t => (true, t)
    | 43 :: t => (false, t)
    | _ => (false, s)
  match takeDigits p.2 with
  | ([], _) => .error .badInput
  | (ds, rest) =>
    let e := digitsToNat ds
    .ok ((if p.1 then { num := v.num, den10 := v.den10 + e }
          else if e ≤ v.den10 then { num := v.num, den10 := v.den10 - e }
          else { num := v.num * (10 : Int) ^ (e - v.den10), den10 := 0 }), rest)

/-- Parse the optional exponent part of a JSON number. -/
def parseExpPart (neg : Bool) (m : Nat) (k : Nat) (s : List Nat) : Except JsonErr (GoFloat × List Nat) :=
  let base : GoFloat := { num := if neg then -(m : Int) else (m : Int), den10 := k }
  match s with
  | 101 :: rest => parseExpDigits base rest
  | 69 :: rest => parseExpDigits base rest
  | _ => .ok (base, s)

/-- Parse the optional fraction part of a JSON number, given the sign and
the integer part. -/
def parseFracPart (neg : Bool) (ip : Nat) (s : List Nat) : Except JsonErr (GoFloat × List Nat) :=
  match s with
  | 46 :: rest =>
    match takeDigits rest with
    | ([], _) => .error .badInput
    | (ds, rest2) => parseExpPart neg (ip * 10 ^ ds.length + digitsToNat ds) ds.length rest2
  | _ => parseExpPart neg ip 0 s

/-- Parse a JSON number from its first byte: optional minus sign, integer
part without redundant leading zeros, optional fraction and exponent. -/
def parseNumBody (s : List Nat) : Except JsonErr (GoFloat × List Nat) :=
  let p : Bool × List Nat :=
    match s with
    | 45 :: t => (true, t)
    | _ => (false, s)
  match p.2 with
  | [] => .error .unexpectedEnd
  | c :: rest =>
    if c == 48 then parseFracPart p.1 0 rest
    else if isDigitByte c then
      let d := takeDigits rest
      parseFracPart p.1 (digitsToNat (c :: d.1)) d.2
    else .error .badInput

/-- UTF-8 bytes of a code point, for JSON unicode escapes. -/
def utf8Encode (n : Nat) : List Nat :=
  if n < 128 then [n]
  else if n < 2048 then [192 + n / 64, 128 + n % 64]
  else if n < 65536 then [224 + n / 4096, 128 + (n / 64) % 64, 128 + n % 64]
  else [240 + n / 262144, 128 + (n / 4096) % 64, 128 + (n / 64) % 64, 128 + n % 64]

/-- Parse the body of a JSON string after the opening quote, decoding the
escape sequences; unpaired surrogates are kept as encoded, a harmless
simplification of the replacement performed by encoding/json, unreachable
from the payloads of the claims. -/
def parseStrBody : List Nat → Except JsonErr (List Nat × List Nat)
  | [] => .error .unexpectedEnd
  | c :: rest =>
    if c == 34 then .ok ([], rest)
    else if c == 92 then
      match rest with
      | [] => .error .unexpectedEnd
      | e :: rest2 =>
        if e == 34 || e == 92 || e == 47 then
          match parseStrBody rest2 with
          | .ok p => .ok (e :: p.1, p.2)
          | .error er => .error er
        else if e == 98 || e == 102 || e == 110 || e == 114 || e == 116 then
          let d : Nat :=
            if e == 98 then 8 else if e == 102 then 12 else if e == 110 then 10
            else if e == 114 then 13 else 9
          match parseStrBody rest2 with
          | .ok p => .ok (d :: p.1, p.2)
          | .error er => .error er
        else if e == 117 then
          match rest2 with
          | a :: b :: c2 :: d2 :: rest3 =>
            if isHexByte a && isHexByte b && isHexByte c2 && isHexByte d2 then
              match parseStrBody rest3 with
              | .ok p =>
                .ok (utf8Encode (((unhexByte a * 16 + unhexByte b) * 16 + unhexByte c2) * 16 + unhexByte d2) ++ p.1, p.2)
              | .error er => .error er
            else .error .badInput
          | _ => .error .unexpectedEnd
        else .error .badInput
    else if c < 32 then .error .badInput
    else
      match parseStrBody rest with
      | .ok p => .ok (c :: p.1, p.2)
      | .error er => .error er

mutual

/-- Parse one JSON value; the fuel bounds the nesting and strictly
decreases on every recursive call. -/
def parseVal : Nat → List Nat → Except JsonErr (Json × List Nat)
  | 0, _ => .error .badInput
  | fuel + 1, s =>
    match skipWs s with
    | [] => .error .unexpectedEnd
    | c :: rest =>
      if c == 110 then
        match rest with
        | 117 :: 108 :: 108 :: r => .ok (.null, r)
        | _ => .error .badInput
      else if c == 116 then
        match rest with
        | 114 :: 117 :: 101 :: r => .ok (.bool true, r)
        | _ => .error .badInput
      else if c == 102 then
        match rest with
        | 97 :: 108 :: 115 :: 101 :: r => .ok (.bool false, r)
        | _ => .error .badInput
      else if c == 34 then
        match parseStrBody rest with
        | .ok p => .ok (.str p.1, p.2)
        | .error e => .error e
      else if c == 91 then
        match skipWs rest with
        | 93 :: r => .ok (.arr [], r)
        | r2 =>
          match parseArrElems fuel r2 with
          | .ok p => .ok (.arr p.1, p.2)
          | .error e => .error e
      else if c == 123 then
        match skipWs rest with
        | 125 :: r => .ok (.obj [], r)
        | r2 =>
          match parseObjFields fuel r2 with
          | .ok p => .ok (.obj p.1, p.2)
          | .error e => .error e
      else if c == 45 || isDigitByte c then
        match parseNumBody (c :: rest) with
        | .ok p => .ok (.num p.1, p.2)
        | .error e => .error e
      else .error .badInput
termination_by structural fuel => fuel

/-- Parse the comma separated elements of a non-empty JSON array up to the
closing bracket. -/
def parseArrElems : Nat → List Nat → Except JsonErr (List Json × List Nat)
  | 0, _ => .error .badInput
  | fuel + 1, s =>
    match parseVal fuel s with
    | .error e => .error e
    | .ok (v, r) =>
      match skipWs r with
      | 44 :: r2 =>
        match parseArrElems fuel r2 with
        | .ok p => .ok (v :: p.1, p.2)
        | .error e => .error e
      | 93 :: r2 => .ok ([v], r2)
      | [] => .error .unexpectedEnd
      | _ => .error .badInput
termination_by structural fuel => fuel

/-- Parse the comma separated fields of a non-empty JSON object up to the
closing brace. -/
def parseObjFields : Nat → List Nat → Except JsonErr (List (List Nat × Json) × List Nat)
  | 0, _ => .error .badInput
  | fuel + 1, s =>
    match skipWs s with
    | 34 :: rest =>
      match parseStrBody rest with
      | .error e => .error e
      | .ok (key, r) =>
        match skipWs r with
        | 58 :: r2 =>
          match parseVal fuel r2 with
          | .error e => .error e
          | .ok (v, r3) =>
            match skipWs r3 with
            | 44 :: r4 =>
              match parseObjFields fuel r4 with
              | .ok p => .ok ((key, v) :: p.1, p.2)
              | .error e => .error e
            | 125 :: r4 => .ok ([(key, v)], r4)
            | [] => .error .unexpectedEnd
            | _ => .error .badInput
        | [] => .error .unexpectedEnd
        | _ => .error .badInput
    | [] => .error .unexpectedEnd
    | _ => .error .badInput
termination_by structural fuel => fuel

end

/-- Models one Decode call of a json Decoder on a fully read body: a body
of whitespace only yields io.EOF; otherwise one value is parsed and any
bytes after it are left unread, as a streaming decoder leaves them. -/
def jsonUnmarshal (body : List Nat) : Except JsonErr Json :=
  match skipWs body with
  | [] => .error .eofErr
  | s =>
    match parseVal (2 * s.length + 4) s with
    | .ok p => .ok p.1
    | .error e => .error e

/-! The decode targets: the Codes sub-struct, the geocodeResult struct of
the newer revision (whose five administrative fields have the dynamic
interface type and accept any JSON value), and the anonymous response
envelope of decodePayload. Field names and json tags follow the source. -/

/-- The Codes sub-struct of geocodeResult (source lines 267 to 274). -/
structure GeocodeCodes where
  Admin_district : List Nat := []
  Admin_county : List Nat := []
  Admin_ward : List Nat := []
  Parish : List Nat := []
  Ccg : List Nat := []
  Nuts : List Nat := []

/-- The geocodeResult struct of the newer revision (source lines 241 to
275). Strings are byte lists, Go int is Int, float64 coordinates are
exact decimal rationals, and the five interface typed administrative
fields hold any decoded JSON value, with none for the nil interface. -/
structure GeocodeResult where
  Postcode : List Nat := []
  Quality : Int := 0
  Eastings : Int := 0
  Northings : Int := 0
  Nhs_ha : List Nat := []
  Longitude : GoFloat := { num := 0, den10 := 0 }
  Latitude : GoFloat := { num := 0, den10 := 0 }
  Parliamentary_constituency : List Nat := []
  European_electoral_region : List Nat := []
  Primary_care_trust : List Nat := []
  Region : List Nat := []
  Lsoa : List Nat := []
  Msoa : List Nat := []
  Incode : List Nat := []
  Outcode : List Nat := []
  Admin_district : Option Json := none
  Parish : Option Json := none
  Admin_county : Option Json := none
  Admin_ward : Option Json := none
  Country : Option Json := none
  Ccg : List Nat := []
  Nuts : List Nat := []
  Codes : GeocodeCodes := {}

/-- The anonymous payload struct of decodePayload (source lines 307 to
311): Status, Result and Error, with no json tags. -/
structure Payload where
  Status : Int := 0
  Result : GeocodeResult := {}
  Error : List Nat := []

/-- Decode a JSON value into a string field: strings assign, null leaves
the field unchanged, anything else is an unmarshal type error. -/
def decodeStrField (v : Json) (cur : List Nat) : List Nat × Option JsonErr :=
  match v with
  | .str s => (s, none)
  | .null => (cur, none)
  | _ => (cur, some .typeErr)

/-- Decode a JSON value into an int field: integral numbers assign, null
leaves the field unchanged, anything else is an unmarshal type error.
The model accepts any number of denominator one where Go reparses the
literal; a fractional or exponent spelling of an integer, unreachable
from the claims, is the only divergence. -/
def decodeIntField (v : Json) (cur : Int) : Int × Option JsonErr :=
  match v with
  | .num q => if q.den10 = 0 then (q.num, none) else (cur, some .typeErr)
  | .null => (cur, none)
  | _ => (cur, some .typeErr)

/-- Decode a JSON value into a float64 field. -/
def decodeRatField (v : Json) (cur : GoFloat) : GoFloat × Option JsonErr :=
  match v with
  | .num q => (q, none)
  | .null => (cur, none)
  | _ => (cur, some .typeErr)

/-- Decode a JSON value into an interface field: null yields the nil
interface and every other value is stored as is; this can never fail. -/
def jsonToIface (v : Json) : Option Json :=
  match v with
  | .null => none
  | v => some v

/-- Keep the first decode error, as the json decoder saves the first
error and keeps decoding the remaining fields. -/
def keepFirst (a b : Option JsonErr) : Option JsonErr :=
  match a with
  | some e => some e
  | none => b

/-- Fold a field setter over the fields of a decoded JSON object,
keeping the first error and the last assignment per field. -/
def foldFields {α : Type} (set : α → List Nat → Json → α × Option JsonErr)
    (fields : List (List Nat × Json)) (init : α) : α × Option JsonErr :=
  fields.foldl (fun acc kv =>
    let r := set acc.1 kv.1 kv.2
    (r.1, keepFirst acc.2 r.2)) (init, none)

/-- ASCII bytes of the json tag status. -/
def statusTag : List Nat := [115, 116, 97, 116, 117, 115]

/-- ASCII bytes of the json tag result. -/
def resultTag : List Nat := [114, 101, 115, 117, 108, 116]

/-- ASCII bytes of the json tag error. -/
def errorTag : List Nat := [101, 114, 114, 111, 114]

/-- ASCII bytes of the json tag postcode. -/
def postcodeTag : List Nat := [112, 111, 115, 116, 99, 111, 100, 101]

/-- ASCII bytes of the json tag quality. -/
def qualityTag : List Nat := [113, 117, 97, 108, 105, 116, 121]

/-- ASCII bytes of the json tag eastings. -/
def eastingsTag : List Nat := [101, 97, 115, 116, 105, 110, 103, 115]

/-- ASCII bytes of the json tag northings. -/
def northingsTag : List Nat := [110, 111, 114, 116, 104, 105, 110, 103, 115]

/-- ASCII bytes of the json tag nhs_ha. -/
def nhsHaTag : List Nat := [110, 104, 115, 95, 104, 97]

/-- ASCII bytes of the json tag longitude. -/
def longitudeTag : List Nat := [108, 111, 110, 103, 105, 116, 117, 100, 101]

/-- ASCII bytes of the json tag latitude. -/
def latitudeTag : List Nat := [108, 97, 116, 105, 116, 117, 100, 101]

/-- ASCII bytes of the json tag parliamentary_constituency. -/
def parliamentaryTag : List Nat := [112, 97, 114, 108, 105, 97, 109, 101, 110, 116, 97, 114, 121, 95, 99, 111, 110, 115, 116, 105, 116, 117, 101, 110, 99, 121]

/-- ASCII bytes of the json tag european_electoral_region. -/
def europeanTag : List Nat := [101, 117, 114, 111, 112, 101, 97, 110, 95, 101, 108, 101, 99, 116, 111, 114, 97, 108, 95, 114, 101, 103, 105, 111, 110]

/-- ASCII bytes of the json tag primary_care_trust. -/
def primaryCareTag : List Nat := [112, 114, 105, 109, 97, 114, 121, 95, 99, 97, 114, 101, 95, 116, 114, 117, 115, 116]

/-- ASCII bytes of the json tag region. -/
def regionTag : List Nat := [114, 101, 103, 105, 111, 110]

/-- ASCII bytes of the json tag lsoa. -/
def lsoaTag : List Nat := [108, 115, 111, 97]

/-- ASCII bytes of the json tag msoa. -/
def msoaTag : List Nat := [109, 115, 111, 97]

/-- ASCII bytes of the json tag incode. -/
def incodeTag : List Nat := [105, 110, 99, 111, 100, 101]

/-- ASCII bytes of the json tag outcode. -/
def outcodeTag : List Nat := [111, 117, 116, 99, 111, 100, 101]

/-- ASCII bytes of the json tag admin_district. -/
def adminDistrictTag : List Nat := [97, 100, 109, 105, 110, 95, 100, 105, 115, 116, 114, 105, 99, 116]

/-- ASCII bytes of the json tag parish. -/
def parishTag : List Nat := [112, 97, 114, 105, 115, 104]

/-- ASCII bytes of the json tag admin_county. -/
def adminCountyTag : List Nat := [97, 100, 109, 105, 110, 95, 99, 111, 117, 110, 116, 121]

/-- ASCII bytes of the json tag admin_ward. -/
def adminWardTag : List Nat := [97, 100, 109, 105, 110, 95, 119, 97, 114, 100]

/-- ASCII bytes of the json tag country. -/
def countryTag : List Nat := [99, 111, 117, 110, 116, 114, 121]

/-- ASCII bytes of the json tag ccg. -/
def ccgTag : List Nat := [99, 99, 103]

/-- ASCII bytes of the json tag nuts. -/
def nutsTag : List Nat := [110, 117, 116, 115]

/-- ASCII bytes of the json tag codes. -/
def codesTag : List Nat := [99, 111, 100, 101, 115]

/-- Assign one JSON object field into the Codes sub-struct. Keys are
matched on their ASCII lower casing, which coincides with the exact tag
match followed by the case insensitive fallback of encoding/json for the
lower case tags of the source; unknown keys are skipped. -/
def setCodesField (c : GeocodeCodes) (key : List Nat) (v : Json) : GeocodeCodes × Option JsonErr :=
  let k := lowerBytes key
  if k = adminDistrictTag then
    let r := decodeStrField v c.Admin_district
    ({ c with Admin_district := r.1 }, r.2)
  else if k = adminCountyTag then
    let r := decodeStrField v c.Admin_county
    ({ c with Admin_county := r.1 }, r.2)
  else if k = adminWardTag then
    let r := decodeStrField v c.Admin_ward
    ({ c with Admin_ward := r.1 }, r.2)
  else if k = parishTag then
    let r := decodeStrField v c.Parish
    ({ c with Parish := r.1 }, r.2)
  else if k = ccgTag then
    let r := decodeStrField v c.Ccg
    ({ c with Ccg := r.1 }, r.2)
  else if k = nutsTag then
    let r := decodeStrField v c.Nuts
    ({ c with Nuts := r.1 }, r.2)
  else (c, none)

/-- Decode a JSON value into the Codes sub-struct. -/
def decodeCodesInto (c : GeocodeCodes) (v : Json) : GeocodeCodes × Option JsonErr :=
  match v with
  | .obj fields => foldFields setCodesField fields c
  | .null => (c, none)
  | _ => (c, some .typeErr)

/-- Assign one JSON object field into geocodeResult, by json tag. The
five administrative fields have the interface type and accept any value
without error; unknown keys are skipped. -/
def setGRField (g : GeocodeResult) (key : List Nat) (v : Json) : GeocodeResult × Option JsonErr :=
  let k := lowerBytes key
  if k = postcodeTag then
    let r := decodeStrField v g.Postcode
    ({ g with Postcode := r.1 }, r.2)
  else if k = qualityTag then
    let r := decodeIntField v g.Quality
    ({ g with Quality := r.1 }, r.2)
  else if k = eastingsTag then
    let r := decodeIntField v g.Eastings
    ({ g with Eastings := r.1 }, r.2)
  else if k = northingsTag then
    let r := decodeIntField v g.Northings
    ({ g with Northings := r.1 }, r.2)
  else if k = nhsHaTag then
    let r := decodeStrField v g.Nhs_ha
    ({ g with Nhs_ha := r.1 }, r.2)
  else if k = longitudeTag then
    let r := decodeRatField v g.Longitude
    ({ g with Longitude := r.1 }, r.2)
  else if k = latitudeTag then
    let r := decodeRatField v g.Latitude
    ({ g with Latitude := r.1 }, r.2)
  else if k = parliamentaryTag then
    let r := decodeStrField v g.Parliamentary_constituency
    ({ g with Parliamentary_constituency := r.1 }, r.2)
  else if k = europeanTag then
    let r := decodeStrField v g.European_electoral_region
    ({ g with European_electoral_region := r.1 }, r.2)
  else if k = primaryCareTag then
    let r := decodeStrField v g.Primary_care_trust
    ({ g with Primary_care_trust := r.1 }, r.2)
  else if k = regionTag then
    let r := decodeStrField v g.Region
    ({ g with Region := r.1 }, r.2)
  else if k = lsoaTag then
    let r := decodeStrField v g.Lsoa
    ({ g with Lsoa := r.1 }, r.2)
  else if k = msoaTag then
    let r := decodeStrField v g.Msoa
    ({ g with Msoa := r.1 }, r.2)
  else if k = incodeTag then
    let r := decodeStrField v g.Incode
    ({ g with Incode := r.1 }, r.2)
  else if k = outcodeTag then
    let r := decodeStrField v g.Outcode
    ({ g with Outcode := r.1 }, r.2)
  else if k = adminDistrictTag then ({ g with Admin_district := jsonToIface v }, none)
  else if k = parishTag then ({ g with Parish := jsonToIface v }, none)
  else if k = adminCountyTag then ({ g with Admin_county := jsonToIface v }, none)
  else if k = adminWardTag then ({ g with Admin_ward := jsonToIface v }, none)
  else if k = countryTag then ({ g with Country := jsonToIface v }, none)
  else if k = ccgTag then
    let r := decodeStrField v g.Ccg
    ({ g with Ccg := r.1 }, r.2)
  else if k = nutsTag then
    let r := decodeStrField v g.Nuts
    ({ g with Nuts := r.1 }, r.2)
  else if k = codesTag then
    let r := decodeCodesInto g.Codes v
    ({ g with Codes := r.1 }, r.2)
  else (g, none)

/-- Decode a JSON value into geocodeResult. -/
def decodeGRInto (g : GeocodeResult) (v : Json) : GeocodeResult × Option JsonErr :=
  match v with
  | .obj fields => foldFields setGRField fields g
  | .null => (g, none)
  | _ => (g, some .typeErr)

/-- Assign one JSON object field into the response envelope; the untagged
Go fields Status, Result and Error match their keys case insensitively. -/
def setEnvField (p : Payload) (key : List Nat) (v : Json) : Payload × Option JsonErr :=
  let k := lowerBytes key
  if k = statusTag then
    let r := decodeIntField v p.Status
    ({ p with Status := r.1 }, r.2)
  else if k = resultTag then
    let r := decodeGRInto p.Result v
    ({ p with Result := r.1 }, r.2)
  else if k = errorTag then
    let r := decodeStrField v p.Error
    ({ p with Error := r.1 }, r.2)
  else (p, none)

/-- Decode a JSON value into the response envelope. -/
def decodeEnvelope (j : Json) : Payload × Option JsonErr :=
  match j with
  | .obj fields => foldFields setEnvField fields ({} : Payload)
  | .null => ({}, none)
  | _ => ({}, some .typeErr)

/-- Models decodePayload (source lines 299 to 335) on a fully read body.
The ReadAll step cannot fail on an in-memory body and is not modelled.
The io.EOF of an empty stream is swallowed; then the envelope error
string check runs before the embedded status check, exactly as in the
source. On a syntax error the model returns the zero valued struct where
the streaming Go decoder may already have assigned earlier fields; no
claim depends on the partial struct of a syntactically invalid body. -/
def decodePayload (body : List Nat) : GeocodeResult × Option GoError :=
  let pe : Payload × Option GoError :=
    match jsonUnmarshal body with
    | .error .eofErr => ({}, none)
    | .error e => ({}, some (.jsonErr e))
    | .ok j =>
      let d := decodeEnvelope j
      (d.1, d.2.map GoError.jsonErr)
  let p := pe.1
  let err0 := pe.2
  let err1 := if err0 = none ∧ p.Error ≠ [] then some (GoError.newError p.Error) else err0
  let err2 := if err1 = none ∧ p.Status ≠ 200 then some (GoError.pkgErr (errorFromHTTPCode p.Status)) else err1
  (p.Result, err2)

/-- Message of a Go error value as the package observes it. The url.Error
format quotes the raw URL; the escaping that the Go quoting applies to
control bytes is not reproduced, a display-only simplification. -/
def goErrorMessage : GoError → List Nat
  | .pkgErr e => e.message
  | .jsonErr .eofErr => [69, 79, 70]
  | .jsonErr .unexpectedEnd => [117, 110, 101, 120, 112, 101, 99, 116, 101, 100, 32, 69, 79, 70]
  | .jsonErr .badInput => [105, 110, 118, 97, 108, 105, 100, 32, 74, 83, 79, 78, 32, 105, 110, 112, 117, 116]
  | .jsonErr .typeErr => [106, 115, 111, 110, 32, 116, 121, 112, 101, 32, 101, 114, 114, 111, 114]
  | .newError m => m
  | .escapeErr s => [105, 110, 118, 97, 108, 105, 100, 32, 85, 82, 76, 32, 101, 115, 99, 97, 112, 101, 32] ++ s
  | .urlWrapErr raw inner =>
    [112, 97, 114, 115, 101, 32, 34] ++ raw ++ [34, 58, 32] ++ goErrorMessage inner

/-- ASCII bytes of the fixed decoration postcodes.io: could not geocode
postcode: with its trailing space. -/
def decorateMsgHead : List Nat :=
  [112, 111, 115, 116, 99, 111, 100, 101, 115, 46, 105, 111, 58, 32, 99, 111, 117, 108, 100, 32, 110, 111, 116, 32, 103, 101, 111, 99, 111, 100, 101, 32, 112, 111, 115, 116, 99, 111, 100, 101, 58, 32]

/-- Models decorateGeocodingError (source lines 337 to 339): errors.New
of the fixed prefix concatenated with the message of the wrapped error. -/
def decorateGeocodingError (e : GoError) : GoError :=
  .newError (decorateMsgHead ++ goErrorMessage e)

/-- The public GeoPoint value type (source lines 342 to 345). -/
structure GeoPoint where
  Longitude : GoFloat
  Latitude : GoFloat
deriving DecidableEq

/-- The zero valued GeoPoint, the value of the named return pt of Geocode
on every early return. -/
def zeroPoint : GeoPoint :=
  { Longitude := { num := 0, den10 := 0 }, Latitude := { num := 0, den10 := 0 } }

/-- An HTTP response as Geocode consumes it: the status code and the
fully read body. -/
structure HttpResponse where
  StatusCode : Int
  Body : List Nat

/-- The GeoPoint built on the final line of Geocode from the decoded
result. -/
def pointFromResult (r : GeocodeResult) : GeoPoint :=
  { Longitude := r.Longitude, Latitude := r.Latitude }

/-- Models Geocode (source lines 348 to 374), with the HTTP transport
abstracted as a function from the request URL to a response or a
transport error: build the URL, perform the get, reject a non 200 status
without touching the body, decode the payload, and return the point built
from the decoded result together with the decorated error if any. Early
returns carry the zero valued named return pt. -/
def GeocodeWith (get : List Nat → Except GoError HttpResponse) (postcode : List Nat) :
    GeoPoint × Option GoError :=
  match geocodeURL postcode with
  | .error e => (zeroPoint, some (decorateGeocodingError e))
  | .ok u =>
    match get u with
    | .error e => (zeroPoint, some (decorateGeocodingError e))
    | .ok r =>
      if r.StatusCode ≠ 200 then
        (zeroPoint,
         some (decorateGeocodingError (.pkgErr (errorFromHTTPCode r.StatusCode))))
      else
        let de := decodePayload r.Body
        match de.2 with
        | some e => (pointFromResult de.1, some (decorateGeocodingError e))
        | none => (pointFromResult de.1, none)

/-! Helper lemmas about the URL model, used to evaluate the parser
symbolically on the two fixed routes with an arbitrary postcode suffix. -/

/-- Cutting at a byte absent from the list returns the whole list. -/
theorem cutAt_not_contains (t : Nat) (l : List Nat) (h : ∀ b ∈ l, b ≠ t) :
    cutAt t l = (l, none) := by
  induction l with
  | nil => rfl
  | cons c rest ih =>
    have hc : (c == t) = false := by simp [h c (List.mem_cons_self c rest)]
    have ih2 := ih (fun b hb => h b (List.mem_cons_of_mem c hb))
    simp [cutAt, hc, ih2]

/-- Cutting skips over a leading part free of the target byte. -/
theorem cutAt_append_left (t : Nat) (a b : List Nat) (h : ∀ x ∈ a, x ≠ t) :
    cutAt t (a ++ b) = (a ++ (cutAt t b).1, (cutAt t b).2) := by
  induction a with
  | nil => simp
  | cons c rest ih =>
    have hc : (c == t) = false := by simp [h c (List.mem_cons_self c rest)]
    have ih2 := ih (fun x hx => h x (List.mem_cons_of_mem c hx))
    simp [cutAt, hc, ih2]

/-- Unescaping one non percent byte. -/
theorem unescapePath_cons_ne (c : Nat) (l : List Nat) (hc : c ≠ 37) :
    unescapePath (c :: l) =
      match unescapePath l with
      | .ok t => .ok (c :: t)
      | .error e => .error e := by
  have hcb : (c == 37) = false := by simp [hc]
  cases l with
  | nil => simp [unescapePath, hcb]
  | cons a t =>
    cases t with
    | nil => simp [unescapePath, hcb]
    | cons b rest2 => simp [unescapePath, hcb]

/-- Unescaping a percent free byte string is the identity. -/
theorem unescapePath_no_pct (l : List Nat) (h : ∀ b ∈ l, b ≠ 37) :
    unescapePath l = .ok l := by
  induction l with
  | nil => rfl
  | cons c rest ih =>
    have ih2 := ih (fun b hb => h b (List.mem_cons_of_mem c hb))
    rw [unescapePath_cons_ne c rest (h c (List.mem_cons_self c rest)), ih2]

/-- Unescaping skips over a leading percent free part. -/
theorem unescapePath_append_left (a b : List Nat) (h : ∀ x ∈ a, x ≠ 37) :
    unescapePath (a ++ b) =
      match unescapePath b with
      | .ok t => .ok (a ++ t)
      | .error e => .error e := by
  induction a with
  | nil => cases hb : unescapePath b <;> simp [hb]
  | cons c rest ih =>
    have ih2 := ih (fun x hx => h x (List.mem_cons_of_mem c hx))
    rw [List.cons_append, unescapePath_cons_ne c (rest ++ b) (h c (List.mem_cons_self c rest)), ih2]
    cases hb : unescapePath b <;> simp [hb]

/-- The escaping map distributes over concatenation. -/
theorem escapeWith_append (p : Nat → Bool) (a b : List Nat) :
    escapeWith p (a ++ b) = escapeWith p a ++ escapeWith p b := by
  induction a with
  | nil => simp [escapeWith]
  | cons c rest ih =>
    by_cases hc : p c = true
    · simp [escapeWith, hc, ih]
    · simp [escapeWith, hc, ih]

/-- Escaping is the identity on byte strings free of escaped bytes. -/
theorem escapeWith_eq_self (p : Nat → Bool) (l : List Nat) (h : ∀ b ∈ l, p b = false) :
    escapeWith p l = l := by
  induction l with
  | nil => rfl
  | cons c rest ih =>
    have hc := h c (List.mem_cons_self c rest)
    have ih2 := ih (fun b hb => h b (List.mem_cons_of_mem c hb))
    simp [escapeWith, hc, ih2]

/-- When escaping moves a byte string, some byte of it is escaped. -/
theorem exists_escaped_of_ne (p : Nat → Bool) (l : List Nat) (h : escapeWith p l ≠ l) :
    ∃ b ∈ l, p b = true := by
  by_contra hall
  push_neg at hall
  exact h (escapeWith_eq_self p l (fun b hb => by
    have := hall b hb
    simp at this
    simp [this]))

/-- Hexadecimal digit bytes round trip on values below sixteen. -/
theorem unhex_upperHex (x : Nat) (h : x < 16) :
    isHexByte (upperHexDigit x) = true ∧ unhexByte (upperHexDigit x) = x := by
  interval_cases x <;> simp [isHexByte, upperHexDigit, unhexByte, isDigitByte]

/-- Unescaping inverts escaping on byte valued lists. -/
theorem unescapePath_escapePath (l : List Nat) (h : ∀ b ∈ l, b < 256) :
    unescapePath (escapePath l) = .ok l := by
  induction l with
  | nil => rfl
  | cons c rest ih =>
    have hc : c < 256 := h c (List.mem_cons_self c rest)
    have ih2 : unescapePath (escapeWith shouldEscapePath rest) = .ok rest :=
      ih (fun b hb => h b (List.mem_cons_of_mem c hb))
    by_cases hesc : shouldEscapePath c = true
    · have h1 := unhex_upperHex (c / 16) (by omega)
      have h2 := unhex_upperHex (c % 16) (by omega)
      have hval : unhexByte (upperHexDigit (c / 16)) * 16 + unhexByte (upperHexDigit (c % 16)) = c := by
        rw [h1.2, h2.2]
        omega
      have hstep : escapePath (c :: rest) =
          37 :: upperHexDigit (c / 16) :: upperHexDigit (c % 16) :: escapeWith shouldEscapePath rest := by
        simp [escapePath, escapeWith, hesc]
      rw [hstep]
      simp [unescapePath, h1.1, h2.1, hval, ih2]
    · have hescf : shouldEscapePath c = false := by simpa using hesc
      have hne37 : c ≠ 37 := by
        intro hcc
        subst hcc
        exact absurd hescf (by decide)
      have hstep : escapePath (c :: rest) = c :: escapeWith shouldEscapePath rest := by
        simp [escapePath, escapeWith, hescf]
      rw [hstep, unescapePath_cons_ne c _ hne37, ih2]

/-- The scheme scanner accepts the fixed https prefix and returns the
rest of the input unchanged. -/
theorem getSchemeAux_https (orig rest : List Nat) :
    getSchemeAux orig [] (104 :: 116 :: 116 :: 112 :: 115 :: 58 :: rest) = .ok (httpsBytes, rest) := by
  rfl

/-- Evaluation of parseRequestURI on a base and route prefix followed by
an arbitrary suffix free of control bytes and question marks whose
unescaping succeeds: the scheme is https, the host is the fixed one, the
path is the route followed by the unescaped suffix, and there is no
query. -/
theorem parseRequestURI_route (route pc d : List Nat)
    (hroute : route = postcodesSeg ∨ route = outcodesSeg)
    (hsafe : ∀ b ∈ pc, isCtlByte b = false ∧ b ≠ 63)
    (hun : unescapePath pc = .ok d) :
    parseRequestURI (baseURL ++ route ++ pc) =
      .ok { scheme := httpsBytes, host := hostBytes, path := route ++ d,
            rawPath := if route ++ pc = escapePath (route ++ d) then [] else route ++ pc,
            forceQuery := false, rawQuery := [] } := by
  have hroute63 : ∀ x ∈ route, x ≠ 63 := by
    rcases hroute with h | h <;> subst h <;> decide
  have hroute37 : ∀ x ∈ route, x ≠ 37 := by
    rcases hroute with h | h <;> subst h <;> decide
  have hrouteCtl : ∀ x ∈ route, isCtlByte x = false := by
    rcases hroute with h | h <;> subst h <;> decide
  have hbase2 : ∀ y ∈ baseURL, isCtlByte y = false := by decide
  have hctl : containsCTLByte (baseURL ++ route ++ pc) = false := by
    apply List.any_eq_false.mpr
    intro x hx
    rcases List.mem_append.mp hx with hx1 | hx2
    · rcases List.mem_append.mp hx1 with hb | hr
      · simp [hbase2 x hb]
      · simp [hrouteCtl x hr]
    · simp [(hsafe x hx2).1]
  have hq : cutAt 63 ((47 :: 47 :: hostBytes) ++ route ++ pc) = ((47 :: 47 :: hostBytes) ++ route ++ pc, none) := by
    rw [List.append_assoc,
        cutAt_append_left 63 (47 :: 47 :: hostBytes) (route ++ pc) (by decide),
        cutAt_append_left 63 route pc hroute63,
        cutAt_not_contains 63 pc (fun b hb => (hsafe b hb).2)]
  have hcuthost : cutAt 47 (hostBytes ++ (route ++ pc)) = (hostBytes, (cutAt 47 (route ++ pc)).2) ∧
      (cutAt 47 (route ++ pc)).2 = some ((route.drop 1) ++ pc) := by
    constructor
    · rw [cutAt_append_left 47 hostBytes (route ++ pc) (by decide)]
      rcases hroute with h | h <;> subst h <;> simp [cutAt]
    · rcases hroute with h | h <;> subst h <;> simp [cutAt, postcodesSeg, outcodesSeg]
  have hsp : unescapePath (route ++ pc) =
      match unescapePath pc with
      | .ok t => .ok (route ++ t)
      | .error e => .error e := unescapePath_append_left route pc hroute37
  rw [hun] at hsp
  have hraw : baseURL ++ route ++ pc =
      104 :: 116 :: 116 :: 112 :: 115 :: 58 :: ((47 :: 47 :: hostBytes) ++ route ++ pc) := by
    simp [baseURL, hostBytes]
  unfold parseRequestURI parseCore
  rw [hctl]
  simp only [Bool.false_eq_true, if_false]
  rw [hraw]
  have hne1 : (104 :: 116 :: 116 :: 112 :: 115 :: 58 :: ((47 :: 47 :: hostBytes) ++ route ++ pc)) ≠ ([] : List Nat) := by simp
  have hne2 : (104 :: 116 :: 116 :: 112 :: 115 :: 58 :: ((47 :: 47 :: hostBytes) ++ route ++ pc)) ≠ [42] := by simp
  rw [if_neg hne1, if_neg hne2]
  have hgs : getScheme (104 :: 116 :: 116 :: 112 :: 115 :: 58 :: ((47 :: 47 :: hostBytes) ++ route ++ pc)) =
      .ok (httpsBytes, (47 :: 47 :: hostBytes) ++ route ++ pc) := by
    unfold getScheme
    exact getSchemeAux_https _ _
  rw [hgs]
  simp only
  have hsq : splitQuery ((47 :: 47 :: hostBytes) ++ route ++ pc) =
      ((47 :: 47 :: hostBytes) ++ route ++ pc, false, []) := by
    unfold splitQuery
    rw [hq]
  rw [hsq]
  simp only
  have hshape : (47 :: 47 :: hostBytes) ++ route ++ pc = 47 :: 47 :: (hostBytes ++ (route ++ pc)) := by
    simp
  rw [hshape]
  have hlower : lowerBytes httpsBytes = httpsBytes := by decide
  simp only [hlower]
  rw [if_pos (by decide : httpsBytes ≠ ([] : List Nat))]
  rw [hcuthost.1, hcuthost.2]
  simp only
  have hauth : parseAuthority hostBytes = .ok hostBytes := by rfl
  rw [hauth]
  simp only
  have hback : 47 :: (route.drop 1 ++ pc) = route ++ pc := by
    rcases hroute with h | h <;> subst h <;> simp [postcodesSeg, outcodesSeg]
  rw [hback]
  unfold setPathOf
  rw [hsp]
  simp only
  by_cases hesc : route ++ pc = escapePath (route ++ d)
  · rw [if_pos hesc, if_pos hesc]
  · rw [if_neg hesc, if_neg hesc]

/-- Properties of alphanumeric bytes that the URL lemmas need. -/
theorem alnum_byte_props (b : Nat) (h : isAlphaNumByte b = true) :
    shouldEscapePath b = false ∧ isCtlByte b = false ∧ b ≠ 63 ∧ b < 256 ∧ b ≠ 37 := by
  have hb : (97 ≤ b ∧ b ≤ 122 ∨ 65 ≤ b ∧ b ≤ 90) ∨ 48 ≤ b ∧ b ≤ 57 := by
    simpa [isAlphaNumByte, isAlphaByte, isDigitByte] using h
  refine ⟨by simp [shouldEscapePath, h], ?_, by omega, by omega, by omega⟩
  simp [isCtlByte]
  omega

/-- Escaped forms of alphanumeric and space byte strings stay free of
control bytes and question marks. -/
theorem escapePath_bytes_safe (l : List Nat) (h : ∀ b ∈ l, b = 32 ∨ isAlphaNumByte b = true) :
    ∀ b2 ∈ escapePath l, isCtlByte b2 = false ∧ b2 ≠ 63 := by
  induction l with
  | nil => simp [escapePath, escapeWith]
  | cons c rest ih =>
    have hc := h c (List.mem_cons_self c rest)
    have ih2 := ih (fun b hb => h b (List.mem_cons_of_mem c hb))
    intro b2 hb2
    rcases hc with hsp | halnum
    · subst hsp
      have hstep : escapePath (32 :: rest) = 37 :: 50 :: 48 :: escapeWith shouldEscapePath rest := by
        have h1 : shouldEscapePath 32 = true := by decide
        simp [escapePath, escapeWith, h1, upperHexDigit]
      rw [hstep] at hb2
      simp only [List.mem_cons] at hb2
      rcases hb2 with h1 | h1 | h1 | h1
      · subst h1
        exact ⟨by decide, by decide⟩
      · subst h1
        exact ⟨by decide, by decide⟩
      · subst h1
        exact ⟨by decide, by decide⟩
      · exact ih2 b2 h1
    · have hprops := alnum_byte_props c halnum
      have hstep : escapePath (c :: rest) = c :: escapeWith shouldEscapePath rest := by
        simp [escapePath, escapeWith, hprops.1]
      rw [hstep] at hb2
      simp only [List.mem_cons] at hb2
      rcases hb2 with h1 | h1
      · subst h1
        exact ⟨hprops.2.1, hprops.2.2.1⟩
      · exact ih2 b2 h1

/-- The round trip core: on a fixed route with an alphanumeric and space
suffix, the URL string that geocodeURL returns parses back to the same
decoded path and the same query. -/
theorem roundTripCore (route pc : List Nat)
    (hroute : route = postcodesSeg ∨ route = outcodesSeg)
    (hpc : ∀ b ∈ pc, b = 32 ∨ isAlphaNumByte b = true)
    (hgr : geocodeRaw pc = baseURL ++ route ++ pc) :
    ∃ u s u2, geocodeURI pc = .ok u ∧ geocodeURL pc = .ok s ∧
      parseRequestURI s = .ok u2 ∧ u2.path = u.path ∧ u2.rawQuery = u.rawQuery := by
  have hsafe : ∀ b ∈ pc, isCtlByte b = false ∧ b ≠ 63 := by
    intro b hb
    rcases hpc b hb with h | h
    · subst h
      exact ⟨by decide, by decide⟩
    · exact ⟨(alnum_byte_props b h).2.1, (alnum_byte_props b h).2.2.1⟩
  have h37 : ∀ b ∈ pc, b ≠ 37 := by
    intro b hb
    rcases hpc b hb with h | h
    · subst h
      decide
    · exact (alnum_byte_props b h).2.2.2.2
  have h256 : ∀ b ∈ pc, b < 256 := by
    intro b hb
    rcases hpc b hb with h | h
    · subst h
      decide
    · exact (alnum_byte_props b h).2.2.2.1
  have hrne : ∀ b ∈ route, shouldEscapePath b = false := by
    rcases hroute with h | h <;> subst h <;> decide
  have hun : unescapePath pc = .ok pc := unescapePath_no_pct pc h37
  have hparse := parseRequestURI_route route pc pc hroute hsafe hun
  have hu : geocodeURI pc = .ok
      { scheme := httpsBytes, host := hostBytes, path := route ++ pc,
        rawPath := if route ++ pc = escapePath (route ++ pc) then [] else route ++ pc,
        forceQuery := false, rawQuery := [] } := by
    rw [geocodeURI, hgr]
    exact hparse
  have hsplit : escapePath (route ++ pc) = route ++ escapePath pc := by
    show escapeWith shouldEscapePath (route ++ pc) = route ++ escapePath pc
    rw [escapeWith_append, escapeWith_eq_self shouldEscapePath route hrne]
    rfl
  have hpathStar : route ++ pc ≠ [42] := by
    rcases hroute with h | h <;> subst h <;> simp [postcodesSeg, outcodesSeg]
  have hEsc : GoURL.escapedPathStr
      { scheme := httpsBytes, host := hostBytes, path := route ++ pc,
        rawPath := if route ++ pc = escapePath (route ++ pc) then [] else route ++ pc,
        forceQuery := false, rawQuery := [] } = escapePath (route ++ pc) := by
    by_cases heq : route ++ pc = escapePath (route ++ pc)
    · have hraw : (if route ++ pc = escapePath (route ++ pc) then ([] : List Nat) else route ++ pc) = [] :=
        if_pos heq
      simp [GoURL.escapedPathStr, hraw, hpathStar]
    · have hex : ∃ b ∈ route ++ pc, shouldEscapePath b = true := by
        apply exists_escaped_of_ne shouldEscapePath (route ++ pc)
        intro hcontra
        exact heq hcontra.symm
      have h32 : (32 : Nat) ∈ route ++ pc := by
        rcases hex with ⟨b, hbmem, hbesc⟩
        rcases List.mem_append.mp hbmem with hbr | hbp
        · exact absurd hbesc (by simp [hrne b hbr])
        · rcases hpc b hbp with h | h
          · subst h
            exact hbmem
          · exact absurd hbesc (by simp [(alnum_byte_props b h).1])
      have hval : validEncodedPath (route ++ pc) = false := by
        apply List.all_eq_false.mpr
        exact ⟨32, h32, by decide⟩
      have hraw : (if route ++ pc = escapePath (route ++ pc) then ([] : List Nat) else route ++ pc) = route ++ pc :=
        if_neg heq
      simp [GoURL.escapedPathStr, hraw, hval, hpathStar]
  have hhead : ∃ t, route ++ escapePath pc = 47 :: t := by
    rcases hroute with h | h <;> subst h <;> exact ⟨_, rfl⟩
  have hToStr : GoURL.toStr
      { scheme := httpsBytes, host := hostBytes, path := route ++ pc,
        rawPath := if route ++ pc = escapePath (route ++ pc) then [] else route ++ pc,
        forceQuery := false, rawQuery := [] } = baseURL ++ route ++ escapePath pc := by
    rcases hhead with ⟨t, ht⟩
    have e1 : httpsBytes ≠ ([] : List Nat) := by decide
    have e2 : hostBytes ≠ ([] : List Nat) := by decide
    have e3 : escapeHost hostBytes = hostBytes := rfl
    rw [GoURL.toStr, hEsc, hsplit, ht]
    simp [e1, e2, e3, List.append_assoc, ht, baseURL, httpsBytes, hostBytes]
    have e4 : escapeHost [97, 112, 105, 46, 112, 111, 115, 116, 99, 111, 100, 101, 115, 46, 105, 111] =
        [97, 112, 105, 46, 112, 111, 115, 116, 99, 111, 100, 101, 115, 46, 105, 111] := rfl
    rw [e4]
    simp
  have hs : geocodeURL pc = .ok (baseURL ++ route ++ escapePath pc) := by
    rw [geocodeURL, hu]
    simp only
    rw [hToStr]
  have hsafe2 : ∀ b ∈ escapePath pc, isCtlByte b = false ∧ b ≠ 63 :=
    escapePath_bytes_safe pc hpc
  have hun2 : unescapePath (escapePath pc) = .ok pc := unescapePath_escapePath pc h256
  have hparse2 := parseRequestURI_route route (escapePath pc) pc hroute hsafe2 hun2
  refine ⟨_, _, _, hu, hs, hparse2, rfl, rfl⟩

/-! The claims about URL construction. -/

/-- ASCII bytes of the postcode SW1A 1AA, the example input of the
specification. -/
def swPostcode : List Nat := [83, 87, 49, 65, 32, 49, 65, 65]

/-- ASCII bytes of the outward code SW1A. -/
def swShort : List Nat := [83, 87, 49, 65]

/-- A five byte input containing a control byte (AB, newline, CD). -/
def c1BadInput : List Nat := [65, 66, 10, 67, 68]

/-- The URL string of a geocodeURL result, or empty on error. -/
def resStr (r : Except GoError (List Nat)) : List Nat :=
  match r with
  | .ok s => s
  | .error _ => []

/-- C1 counterexample: the input AB, newline, CD has five bytes, so the
claim, quantified over every input string, promises a URL whose path is
/postcodes/ followed by the input; instead geocodeURL produces no URL at
all, because the URL parser rejects the control byte. -/
theorem geocodeURL_routing_counterexample :
    4 < c1BadInput.length ∧
    geocodeURL c1BadInput =
      .error (.urlWrapErr (baseURL ++ postcodesSeg ++ c1BadInput) (.newError ctlMsg)) :=
  ⟨by decide, rfl⟩

/-- C1 (amended): for every input free of control bytes, question marks
and percent signs, geocodeURL succeeds and routes by length against the
base address: the parsed URL has scheme https, host api.postcodes.io, and
decoded path /postcodes/ followed by the input when the input is longer
than four bytes, otherwise /outcodes/ followed by the input; the returned
URL string is the serialisation of that parsed URL. -/
theorem geocodeURL_routing :
    ∀ pc : List Nat, (∀ b ∈ pc, isCtlByte b = false ∧ b ≠ 63 ∧ b ≠ 37) →
      ∃ u, geocodeURI pc = .ok u ∧
        u.scheme = httpsBytes ∧ u.host = hostBytes ∧
        u.path = (if 4 < pc.length then postcodesSeg else outcodesSeg) ++ pc ∧
        geocodeURL pc = .ok u.toStr := by
  intro pc h
  have hsafe : ∀ b ∈ pc, isCtlByte b = false ∧ b ≠ 63 := fun b hb => ⟨(h b hb).1, (h b hb).2.1⟩
  have h37 : ∀ b ∈ pc, b ≠ 37 := fun b hb => (h b hb).2.2
  have hun : unescapePath pc = .ok pc := unescapePath_no_pct pc h37
  by_cases hlen : 4 < pc.length
  · have hgr : geocodeRaw pc = baseURL ++ postcodesSeg ++ pc := by simp [geocodeRaw, hlen]
    have hparse := parseRequestURI_route postcodesSeg pc pc (Or.inl rfl) hsafe hun
    have hu : geocodeURI pc = .ok
        { scheme := httpsBytes, host := hostBytes, path := postcodesSeg ++ pc,
          rawPath := if postcodesSeg ++ pc = escapePath (postcodesSeg ++ pc) then [] else postcodesSeg ++ pc,
          forceQuery := false, rawQuery := [] } := by
      rw [geocodeURI, hgr]
      exact hparse
    refine ⟨_, hu, rfl, rfl, by simp [hlen], ?_⟩
    rw [geocodeURL, hu]
  · have hgr : geocodeRaw pc = baseURL ++ outcodesSeg ++ pc := by simp [geocodeRaw, hlen]
    have hparse := parseRequestURI_route outcodesSeg pc pc (Or.inr rfl) hsafe hun
    have hu : geocodeURI pc = .ok
        { scheme := httpsBytes, host := hostBytes, path := outcodesSeg ++ pc,
          rawPath := if outcodesSeg ++ pc = escapePath (outcodesSeg ++ pc) then [] else outcodesSeg ++ pc,
          forceQuery := false, rawQuery := [] } := by
      rw [geocodeURI, hgr]
      exact hparse
    refine ⟨_, hu, rfl, rfl, by simp [hlen], ?_⟩
    rw [geocodeURL, hu]

/-- C1 witness: the hypotheses of the routing theorem hold at the concrete
postcode SW1A 1AA. -/
theorem geocodeURL_routing_witness :
    (∀ b ∈ swPostcode, isCtlByte b = false ∧ b ≠ 63 ∧ b ≠ 37) ∧
    (∃ u, geocodeURI swPostcode = .ok u ∧
      u.scheme = httpsBytes ∧ u.host = hostBytes ∧
      u.path = (if 4 < swPostcode.length then postcodesSeg else outcodesSeg) ++ swPostcode ∧
      geocodeURL swPostcode = .ok u.toStr) :=
  ⟨by decide, geocodeURL_routing swPostcode (by decide)⟩

/-- C9: for every input whose bytes are ASCII alphanumerics or spaces,
and in particular for SW1A 1AA, building the request URL and parsing the
returned string back yields a URL with the same decoded path and the same
query: the construction and parse cycle introduces no escaping anomaly. -/
theorem geocodeURL_roundTrip :
    ∀ pc : List Nat, (∀ b ∈ pc, b = 32 ∨ isAlphaNumByte b = true) →
      ∃ u s u2, geocodeURI pc = .ok u ∧ geocodeURL pc = .ok s ∧
        parseRequestURI s = .ok u2 ∧ u2.path = u.path ∧ u2.rawQuery = u.rawQuery := by
  intro pc hpc
  by_cases hlen : 4 < pc.length
  · exact roundTripCore postcodesSeg pc (Or.inl rfl) hpc (by simp [geocodeRaw, hlen])
  · exact roundTripCore outcodesSeg pc (Or.inr rfl) hpc (by simp [geocodeRaw, hlen])

/-- C9 witness: the round trip theorem applies to the concrete postcode
SW1A 1AA, whose bytes are alphanumerics and a space. -/
theorem geocodeURL_roundTrip_witness :
    (∀ b ∈ swPostcode, b = 32 ∨ isAlphaNumByte b = true) ∧
    (∃ u s u2, geocodeURI swPostcode = .ok u ∧ geocodeURL swPostcode = .ok s ∧
      parseRequestURI s = .ok u2 ∧ u2.path = u.path ∧ u2.rawQuery = u.rawQuery) :=
  ⟨by decide, geocodeURL_roundTrip swPostcode (by decide)⟩

/-- C10: the two revisions of geocodeURL agree, results and errors alike,
on every input longer than four bytes; the older revision always routes
to /postcodes/ regardless of length; and on a four byte input the two
revisions return different URL strings. -/
theorem geocodeURL_revisions :
    (∀ pc : List Nat, 4 < pc.length → geocodeURL pc = geocodeURLrev1 pc) ∧
    (∀ pc : List Nat, geocodeURLrev1 pc =
        match parseRequestURI (baseURL ++ postcodesSeg ++ pc) with
        | .error e => .error e
        | .ok uri => .ok uri.toStr) ∧
    resStr (geocodeURLrev1 swShort) ≠ resStr (geocodeURL swShort) := by
  refine ⟨?_, fun pc => rfl, by decide⟩
  intro pc h
  rw [geocodeURL, geocodeURLrev1, geocodeURI, geocodeRaw, if_pos h]

/-- C10 witness: the agreement hypothesis holds at the concrete eight
byte postcode SW1A 1AA. -/
theorem geocodeURL_revisions_witness :
    4 < swPostcode.length ∧ geocodeURL swPostcode = geocodeURLrev1 swPostcode :=
  ⟨by decide, geocodeURL_revisions.1 swPostcode (by decide)⟩

/-! The claims about decoding and the public entry point, with the stub
responses of the specification as concrete byte strings. -/

/-- URL string that geocodeURL returns for SW1A 1AA, with the space
escaped: https://api.postcodes.io/postcodes/SW1A%201AA . -/
def swURL : List Nat :=
  [104, 116, 116, 112, 115, 58, 47, 47, 97, 112, 105, 46, 112, 111, 115, 116, 99, 111, 100, 101, 115, 46, 105, 111, 47, 112, 111, 115, 116, 99, 111, 100, 101, 115, 47, 83, 87, 49, 65, 37, 50, 48, 49, 65, 65]

/-- Bytes of the success stub body with status 200 and coordinates
longitude -0.127 and latitude 51.507. -/
def c2Body : List Nat :=
  [123, 34, 115, 116, 97, 116, 117, 115, 34, 58, 50, 48, 48, 44, 34, 114, 101, 115, 117, 108, 116, 34, 58, 123, 34, 108, 111, 110, 103, 105, 116, 117, 100, 101, 34, 58, 45, 48, 46, 49, 50, 55, 44, 34, 108, 97, 116, 105, 116, 117, 100, 101, 34, 58, 53, 49, 46, 53, 48, 55, 125, 125]

/-- A stub transport always answering HTTP 200 with the success body. -/
def c2Get : List Nat → Except GoError HttpResponse :=
  fun _ => .ok { StatusCode := 200, Body := c2Body }

/-- The success stub response. -/
def c2Resp : HttpResponse := { StatusCode := 200, Body := c2Body }

/-- Bytes of a 200 body whose envelope carries both an error string and a
populated result: status 200, error boom, longitude 1.5, latitude 2.5. -/
def c3Body : List Nat :=
  [123, 34, 115, 116, 97, 116, 117, 115, 34, 58, 50, 48, 48, 44, 34, 101, 114, 114, 111, 114, 34, 58, 34, 98, 111, 111, 109, 34, 44, 34, 114, 101, 115, 117, 108, 116, 34, 58, 123, 34, 108, 111, 110, 103, 105, 116, 117, 100, 101, 34, 58, 49, 46, 53, 44, 34, 108, 97, 116, 105, 116, 117, 100, 101, 34, 58, 50, 46, 53, 125, 125]

/-- A stub transport answering HTTP 200 with the inconsistent body. -/
def c3Get : List Nat → Except GoError HttpResponse :=
  fun _ => .ok { StatusCode := 200, Body := c3Body }

/-- Bytes of the error string boom. -/
def boomMsg : List Nat := [98, 111, 111, 109]

/-- A stub transport always answering HTTP 404 with an empty body. -/
def get404 : List Nat → Except GoError HttpResponse :=
  fun _ => .ok { StatusCode := 404, Body := [] }

/-- Bytes of the stub body with an embedded status 404 and error string:
status 404, error not found. -/
def c5Body : List Nat :=
  [123, 34, 115, 116, 97, 116, 117, 115, 34, 58, 52, 48, 52, 44, 34, 101, 114, 114, 111, 114, 34, 58, 34, 110, 111, 116, 32, 102, 111, 117, 110, 100, 34, 125]

/-- Bytes of the error string not found. -/
def notFoundMsg : List Nat := [110, 111, 116, 32, 102, 111, 117, 110, 100]

/-- The parsed JSON value of the embedded status stub body. -/
def c5Json : Json := .obj [(statusTag, .num { num := 404, den10 := 0 }), (errorTag, .str notFoundMsg)]

/-- The envelope decoded from the embedded status stub body. -/
def c5Payload : Payload := { Status := 404, Result := {}, Error := notFoundMsg }

/-- Bytes of the name Westminster. -/
def westminsterBytes : List Nat := [87, 101, 115, 116, 109, 105, 110, 115, 116, 101, 114]

/-- Bytes of the name Camden. -/
def camdenBytes : List Nat := [67, 97, 109, 100, 101, 110]

/-- Bytes of a success body whose admin_district is a single string. -/
def c8BodyStr : List Nat :=
  [123, 34, 115, 116, 97, 116, 117, 115, 34, 58, 50, 48, 48, 44, 34, 114, 101, 115, 117, 108, 116, 34, 58, 123, 34, 97, 100, 109, 105, 110, 95, 100, 105, 115, 116, 114, 105, 99, 116, 34, 58, 34, 87, 101, 115, 116, 109, 105, 110, 115, 116, 101, 114, 34, 44, 34, 108, 111, 110, 103, 105, 116, 117, 100, 101, 34, 58, 45, 48, 46, 49, 50, 55, 44, 34, 108, 97, 116, 105, 116, 117, 100, 101, 34, 58, 53, 49, 46, 53, 48, 55, 125, 125]

/-- Bytes of a success body whose admin_district is a list of strings. -/
def c8BodyList : List Nat :=
  [123, 34, 115, 116, 97, 116, 117, 115, 34, 58, 50, 48, 48, 44, 34, 114, 101, 115, 117, 108, 116, 34, 58, 123, 34, 97, 100, 109, 105, 110, 95, 100, 105, 115, 116, 114, 105, 99, 116, 34, 58, 91, 34, 87, 101, 115, 116, 109, 105, 110, 115, 116, 101, 114, 34, 44, 34, 67, 97, 109, 100, 101, 110, 34, 93, 44, 34, 108, 111, 110, 103, 105, 116, 117, 100, 101, 34, 58, 45, 48, 46, 49, 50, 55, 44, 34, 108, 97, 116, 105, 116, 117, 100, 101, 34, 58, 53, 49, 46, 53, 48, 55, 125, 125]

/-- Bool test: a JSON value is a single string or a list of strings. -/
def isStrOrStrList : Json → Bool
  | .str _ => true
  | .arr xs => xs.all fun j => match j with | .str _ => true | _ => false
  | _ => false

/-- C2: the stubbed HTTP 200 response with the given JSON yields exactly
GeoPoint with longitude -0.127 and latitude 51.507 and a nil error; and
in general every call whose response has status 200 and whose payload
decodes without error returns the point built from the decoded longitude
and latitude, with a nil error and no partial success state. -/
theorem Geocode_success_spec :
    (GeocodeWith c2Get swPostcode =
      ({ Longitude := { num := -127, den10 := 3 }, Latitude := { num := 51507, den10 := 3 } }, none)) ∧
    ∀ (get : List Nat → Except GoError HttpResponse) (pc u : List Nat) (r : HttpResponse),
      geocodeURL pc = .ok u → get u = .ok r → r.StatusCode = 200 →
      (decodePayload r.Body).2 = none →
      GeocodeWith get pc = (pointFromResult (decodePayload r.Body).1, none) := by
  constructor
  · rfl
  · intro get pc u r hu hg hs hd
    simp only [GeocodeWith, hu, hg]
    simp [hs, hd]

/-- C2 witness: the general success theorem applies to the concrete stub
transport and postcode of the specification. -/
theorem Geocode_success_spec_witness :
    geocodeURL swPostcode = .ok swURL ∧ c2Get swURL = .ok c2Resp ∧
    c2Resp.StatusCode = 200 ∧ (decodePayload c2Resp.Body).2 = none ∧
    GeocodeWith c2Get swPostcode = (pointFromResult (decodePayload c2Resp.Body).1, none) := by
  refine ⟨rfl, rfl, rfl, rfl, ?_⟩
  exact Geocode_success_spec.2 c2Get swPostcode swURL c2Resp rfl rfl rfl rfl

/-- C3 counterexample: an HTTP 200 response whose envelope carries an
error string and a populated result makes Geocode fail with a decorated
error while returning the decoded coordinates 1.5 and 2.5, not the zero
valued GeoPoint that the claim promises for every failing call. -/
theorem Geocode_outcomes_counterexample :
    GeocodeWith c3Get swPostcode =
      ({ Longitude := { num := 15, den10 := 1 }, Latitude := { num := 25, den10 := 1 } },
       some (decorateGeocodingError (.newError boomMsg))) ∧
    ({ Longitude := { num := 15, den10 := 1 }, Latitude := { num := 25, den10 := 1 } } : GeoPoint) ≠
      zeroPoint :=
  ⟨rfl, by decide⟩

/-- C3 (amended): every call returns either a nil error or an error whose
message is the fixed prefix postcodes.io: could not geocode postcode:
followed by the wrapped error message, so every failure is decorated and
there is no third outcome; on every failure before the decode stage (URL
construction, transport, or a non 200 HTTP status) the returned GeoPoint
is additionally zero valued. A decode stage failure may instead return
partially decoded coordinates beside the error, the single point where
the original claim fails. -/
theorem Geocode_outcomes :
    ∀ (get : List Nat → Except GoError HttpResponse) (pc : List Nat),
      ((GeocodeWith get pc).2 = none ∨
        ∃ e0, (GeocodeWith get pc).2 = some (.newError (decorateMsgHead ++ goErrorMessage e0))) ∧
      (((∃ e, geocodeURL pc = .error e) ∨
        (∃ u e, geocodeURL pc = .ok u ∧ get u = .error e) ∨
        (∃ u r, geocodeURL pc = .ok u ∧ get u = .ok r ∧ r.StatusCode ≠ 200)) →
        (GeocodeWith get pc).1 = zeroPoint ∧
        (GeocodeWith get pc).2 ≠ none) := by
  intro get pc
  cases hu : geocodeURL pc with
  | error e =>
    constructor
    · right
      exact ⟨e, by simp [GeocodeWith, hu, decorateGeocodingError]⟩
    · intro _
      constructor <;> simp [GeocodeWith, hu]
  | ok u =>
    cases hg : get u with
    | error e =>
      constructor
      · right
        exact ⟨e, by simp [GeocodeWith, hu, hg, decorateGeocodingError]⟩
      · intro _
        constructor <;> simp [GeocodeWith, hu, hg]
    | ok r =>
      by_cases hs : r.StatusCode = 200
      · have hnotpre : ¬ ((∃ e, (Except.ok u : Except GoError (List Nat)) = .error e) ∨
            (∃ u2 e, (Except.ok u : Except GoError (List Nat)) = .ok u2 ∧ get u2 = .error e) ∨
            (∃ u2 r2, (Except.ok u : Except GoError (List Nat)) = .ok u2 ∧ get u2 = .ok r2 ∧
              r2.StatusCode ≠ 200)) := by
          intro hpre
          rcases hpre with ⟨e2, he⟩ | ⟨u2, e2, hu2, he⟩ | ⟨u2, r2, hu2, hr2, hs2⟩
          · simp at he
          · simp at hu2
            subst hu2
            simp [hg] at he
          · simp at hu2
            subst hu2
            simp [hg] at hr2
            subst hr2
            exact hs2 hs
        cases hd : (decodePayload r.Body).2 with
        | none =>
          constructor
          · left
            simp [GeocodeWith, hu, hg, hs, hd]
          · intro hpre
            exact absurd hpre hnotpre
        | some e =>
          constructor
          · right
            exact ⟨e, by simp [GeocodeWith, hu, hg, hs, hd, decorateGeocodingError]⟩
          · intro hpre
            exact absurd hpre hnotpre
      · constructor
        · right
          exact ⟨.pkgErr (errorFromHTTPCode r.StatusCode),
            by simp [GeocodeWith, hu, hg, hs, decorateGeocodingError]⟩
        · intro _
          constructor <;> simp [GeocodeWith, hu, hg, hs]

/-- C3 witness: the pre decode failure hypothesis of the amended theorem
is satisfied by the stubbed 404 transport, which yields the zero point
and a non nil error. -/
theorem Geocode_outcomes_witness :
    ((∃ e, geocodeURL swPostcode = .error e) ∨
     (∃ u e, geocodeURL swPostcode = .ok u ∧ get404 u = .error e) ∨
     (∃ u r, geocodeURL swPostcode = .ok u ∧ get404 u = .ok r ∧ r.StatusCode ≠ 200)) ∧
    (GeocodeWith get404 swPostcode).1 = zeroPoint ∧
    (GeocodeWith get404 swPostcode).2 ≠ none := by
  have hpre : (∃ e, geocodeURL swPostcode = .error e) ∨
      (∃ u e, geocodeURL swPostcode = .ok u ∧ get404 u = .error e) ∨
      (∃ u r, geocodeURL swPostcode = .ok u ∧ get404 u = .ok r ∧ r.StatusCode ≠ 200) :=
    Or.inr (Or.inr ⟨swURL, { StatusCode := 404, Body := [] }, rfl, rfl, by decide⟩)
  exact ⟨hpre, (Geocode_outcomes get404 swPostcode).2 hpre⟩

/-- C4 counterexample: on an empty body the end of input from the JSON
parse is swallowed, but decodePayload then classifies the zero embedded
status and returns the InvalidError kind, not the nil error that the
claim promises. -/
theorem decodePayload_empty_counterexample :
    decodePayload [] = ({}, some (.pkgErr .InvalidError)) := rfl

/-- C4 (amended): whenever the JSON decoder reports end of input, that is
on an empty or whitespace only body, the end of input error itself is
swallowed and the decoded struct is zero valued; but the embedded status
check then fires on the zero envelope, whose status 0 is not 200, so
decodePayload returns the InvalidError classification instead of no
error. -/
theorem decodePayload_eof_swallowed :
    ∀ body : List Nat, jsonUnmarshal body = .error .eofErr →
      decodePayload body = ({}, some (.pkgErr .InvalidError)) := by
  intro body h
  simp [decodePayload, h, errorFromHTTPCode]

/-- C4 witness: the empty body satisfies the end of input hypothesis. -/
theorem decodePayload_eof_swallowed_witness :
    jsonUnmarshal ([] : List Nat) = .error .eofErr ∧
    decodePayload [] = ({}, some (.pkgErr .InvalidError)) :=
  ⟨rfl, decodePayload_eof_swallowed [] rfl⟩

/-- C5: when the body parses and the envelope decodes without a JSON
error, decodePayload fails with the envelope error string as a generic
error when that string is non empty, and only otherwise classifies a non
200 embedded status through errorFromHTTPCode: the error string check
runs before the embedded status check. -/
theorem decodePayload_envelope_checks :
    ∀ (body : List Nat) (j : Json) (p : Payload),
      jsonUnmarshal body = .ok j →
      decodeEnvelope j = (p, none) →
      decodePayload body =
        (p.Result,
          if p.Error ≠ [] then some (.newError p.Error)
          else if p.Status ≠ 200 then some (.pkgErr (errorFromHTTPCode p.Status))
          else none) := by
  intro body j p hj hp
  by_cases hE : p.Error = []
  · by_cases hS : p.Status = 200
    · simp [decodePayload, hj, hp, hE, hS]
    · simp [decodePayload, hj, hp, hE, hS]
  · simp [decodePayload, hj, hp, hE]

/-- C5 witness: the stub body with embedded status 404 and error string
not found decodes cleanly, and decodePayload surfaces the error string,
showing the error string check wins over the embedded status check. -/
theorem decodePayload_envelope_checks_witness :
    jsonUnmarshal c5Body = .ok c5Json ∧
    decodeEnvelope c5Json = (c5Payload, none) ∧
    decodePayload c5Body = (({} : GeocodeResult), some (.newError notFoundMsg)) := by
  refine ⟨rfl, rfl, ?_⟩
  have h := decodePayload_envelope_checks c5Body c5Json c5Payload rfl rfl
  rw [h]
  rfl

/-- C6: errorFromHTTPCode is a total pure function on the integers that
maps 400 to BadRequest, 404 to NotFound, 500 to ServerError, and every
other integer, including 200 and 0, to InvalidError. -/
theorem errorFromHTTPCode_spec :
    errorFromHTTPCode 400 = .BadRequest ∧
    errorFromHTTPCode 404 = .NotFound ∧
    errorFromHTTPCode 500 = .ServerError ∧
    errorFromHTTPCode 200 = .InvalidError ∧
    errorFromHTTPCode 0 = .InvalidError ∧
    ∀ c : Int, c ≠ 400 → c ≠ 404 → c ≠ 500 → errorFromHTTPCode c = .InvalidError := by
  refine ⟨rfl, rfl, rfl, rfl, rfl, ?_⟩
  intro c h1 h2 h3
  simp [errorFromHTTPCode, h1, h2, h3]

/-- C6 witness: the catch all case of the classification theorem holds at
the concrete status 7. -/
theorem errorFromHTTPCode_spec_witness :
    (7 : Int) ≠ 400 ∧ (7 : Int) ≠ 404 ∧ (7 : Int) ≠ 500 ∧
    errorFromHTTPCode 7 = .InvalidError :=
  ⟨by decide, by decide, by decide,
    errorFromHTTPCode_spec.2.2.2.2.2 7 (by decide) (by decide) (by decide)⟩

/-- C7: whenever the transport returns a response whose status is not
exactly 200, Geocode returns immediately with the zero point and the
decorated classification of that status; the result does not depend on
the response body, which is never decoded. -/
theorem Geocode_non200 :
    ∀ (get : List Nat → Except GoError HttpResponse) (pc u : List Nat) (r : HttpResponse),
      geocodeURL pc = .ok u → get u = .ok r → r.StatusCode ≠ 200 →
      GeocodeWith get pc =
        (zeroPoint,
         some (decorateGeocodingError (.pkgErr (errorFromHTTPCode r.StatusCode)))) := by
  intro get pc u r hu hg hs
  simp [GeocodeWith, hu, hg, hs]

/-- C7 witness: for the stubbed 404 response the classified kind is
NotFound. -/
theorem Geocode_non200_witness :
    geocodeURL swPostcode = .ok swURL ∧
    get404 swURL = .ok { StatusCode := 404, Body := [] } ∧
    (({ StatusCode := 404, Body := [] } : HttpResponse).StatusCode ≠ 200) ∧
    GeocodeWith get404 swPostcode =
      (zeroPoint,
       some (decorateGeocodingError (.pkgErr .NotFound))) := by
  refine ⟨rfl, rfl, by decide, ?_⟩
  exact Geocode_non200 get404 swPostcode swURL { StatusCode := 404, Body := [] } rfl rfl (by decide)

/-- C8: each of the five administrative fields accepts a value that is a
single string or a list of strings without any decode error, whatever the
current struct value; the concrete envelopes with admin_district in both
shapes decode end to end without error; and the point handed to the
caller is computed from the longitude and latitude alone, so these
fields are not exposed in either case. -/
theorem adminFields_polymorphic :
    (∀ (g : GeocodeResult) (key : List Nat) (v : Json),
      (key = adminDistrictTag ∨ key = parishTag ∨ key = adminCountyTag ∨
        key = adminWardTag ∨ key = countryTag) →
      isStrOrStrList v = true →
      (setGRField g key v).2 = none) ∧
    (decodePayload c8BodyStr).2 = none ∧
    (decodePayload c8BodyList).2 = none ∧
    ∀ r1 r2 : GeocodeResult, r1.Longitude = r2.Longitude → r1.Latitude = r2.Latitude →
      pointFromResult r1 = pointFromResult r2 := by
  refine ⟨?_, rfl, rfl, ?_⟩
  · intro g key v hk _
    rcases hk with h | h | h | h | h <;> subst h <;> rfl
  · intro r1 r2 h1 h2
    simp [pointFromResult, h1, h2]

/-- C8 witness: the polymorphic field theorem applies to admin_district
holding a single string and holding a list of strings. -/
theorem adminFields_polymorphic_witness :
    (adminDistrictTag = adminDistrictTag ∨ adminDistrictTag = parishTag ∨
      adminDistrictTag = adminCountyTag ∨ adminDistrictTag = adminWardTag ∨
      adminDistrictTag = countryTag) ∧
    isStrOrStrList (.str westminsterBytes) = true ∧
    (setGRField {} adminDistrictTag (.str westminsterBytes)).2 = none ∧
    isStrOrStrList (.arr [.str westminsterBytes, .str camdenBytes]) = true ∧
    (setGRField {} adminDistrictTag (.arr [.str westminsterBytes, .str camdenBytes])).2 = none := by
  refine ⟨Or.inl rfl, rfl, ?_, rfl, ?_⟩
  · exact adminFields_polymorphic.1 {} adminDistrictTag (.str westminsterBytes) (Or.inl rfl) rfl
  · exact adminFields_polymorphic.1 {} adminDistrictTag
      (.arr [.str westminsterBytes, .str camdenBytes]) (Or.inl rfl) rfl

end Postcodesio
